import Mathlib

/-!
Verification development for the openshift-coordination-engine core:
the incident store (internal/storage, package storage) and the
Machine Config Operator stabilization client (package integrations).

Modelling conventions:
- Go time.Time values are modelled as `Int` instants on a linear clock;
  one day is 86400 units, the poll interval of 10 seconds is 10 units.
- The Go map `map[string]*models.Incident` is modelled as an association
  list `List (String × Incident)`; map assignment replaces the entry in
  place when the key is present and appends otherwise, map delete removes
  the entry.
- File-system effects are modelled by oracles: `persistEnabled` is whether
  a file path is configured (`s.filePath != ""`), `persistOk` is whether
  `saveToFileUnsafe` succeeds, and `FileState` is the state of the
  persisted file seen by `LoadFromFile`.
- The `models.Incident` type and its `Validate` method live outside the
  provided sources; the storage code only calls `Validate` as a black box,
  so operations are parametrized by a validation predicate
  `valid : Incident → Bool` (the spec calls validation a caller concern).
-/

namespace Storage

/-- Modelled from the spec: the models package (not among the provided
sources) defines incident status constants; the spec fixes the minimal
status taxonomy as "active" and "resolved". -/
def incidentStatusActive : String := "active"

/-- Modelled from the spec: the resolved status constant of the models
package (not among the provided sources). -/
def incidentStatusResolved : String := "resolved"

/-- An incident record, with the fields the storage layer reads and
writes: ID, Target, Severity, Status, CreatedAt, UpdatedAt, ResolvedAt.
Severity and Status are string-typed in Go and modelled as `String`. -/
structure Incident where
  id : String
  target : String
  severity : String
  status : String
  createdAt : Int
  updatedAt : Int
  resolvedAt : Option Int
deriving DecidableEq, Repr

/-- The in-memory incident map of an `IncidentStore`. -/
abbrev Store : Type := List (String × Incident)

/-- Errors surfaced by the storage operations, one constructor per
distinct `fmt.Errorf` failure path. -/
inductive StoreErr where
  | validationFailed
  | persistenceFailed
  | notFound (id : String)
  | noFilePath
  | loadFailed
  | mkdirFailed
deriving DecidableEq, Repr

/-- Map lookup: `s.incidents[id]`. -/
def lookupInc : Store → String → Option Incident
  | [], _ => none
  | (k, v) :: rest, i => if k = i then some v else lookupInc rest i

/-- Map assignment `s.incidents[id] = v`: replaces in place when the key
is present, appends otherwise. -/
def insertInc : Store → String → Incident → Store
  | [], i, v => [(i, v)]
  | (k, w) :: rest, i, v =>
    if k = i then (i, v) :: rest else (k, w) :: insertInc rest i v

/-- Map removal `delete(s.incidents, id)`. -/
def eraseInc : Store → String → Store
  | [], _ => []
  | (k, w) :: rest, i => if k = i then rest else (k, w) :: eraseInc rest i

/-- `IncidentStore.Create`: validate, generate an id when the caller left
it empty (`genId` is the value `generateIncidentID` would return), set
`createdAt = updatedAt = now`, default the status to active, insert, and
when persistence is enabled attempt the save; on save failure the code
rolls back with `delete(s.incidents, incident.ID)` and returns the
persistence error. Returns the stored record on success. -/
def create (valid : Incident → Bool) (now : Int) (genId : String)
    (persistEnabled persistOk : Bool) (s : Store) (inc : Incident) :
    Except StoreErr Incident × Store :=
  if valid inc = false then (.error .validationFailed, s)
  else
    let newId := if inc.id = "" then genId else inc.id
    let stored : Incident :=
      { inc with
        id := newId
        createdAt := now
        updatedAt := now
        status := if inc.status = "" then incidentStatusActive else inc.status }
    let s1 := insertInc s newId stored
    if persistEnabled ∧ persistOk = false then
      (.error .persistenceFailed, eraseInc s1 newId)
    else (.ok stored, s1)

/-- `IncidentStore.Get`: lookup, or a not-found error. -/
def get (s : Store) (i : String) : Except StoreErr Incident :=
  match lookupInc s i with
  | none => .error (.notFound i)
  | some v => .ok v

/-- `IncidentStore.Update`: requires the id to exist (keeping the old
record for rollback), sets `updatedAt = now`, stores the caller's record,
and when persistence is enabled attempts the save; on save failure it
restores the old record and returns the persistence error. Note that the
code performs no validation here and stores the caller's record wholesale,
including its `createdAt`. -/
def update (now : Int) (persistEnabled persistOk : Bool)
    (s : Store) (inc : Incident) : Except StoreErr Unit × Store :=
  match lookupInc s inc.id with
  | none => (.error (.notFound inc.id), s)
  | some old =>
    let stored : Incident := { inc with updatedAt := now }
    let s1 := insertInc s inc.id stored
    if persistEnabled ∧ persistOk = false then
      (.error .persistenceFailed, insertInc s1 inc.id old)
    else (.ok (), s1)

/-- `IncidentStore.Delete`: requires the id to exist (keeping the removed
record for rollback), removes it, and when persistence is enabled attempts
the save; on save failure it reinserts the removed record and returns the
persistence error. -/
def delete (persistEnabled persistOk : Bool)
    (s : Store) (i : String) : Except StoreErr Unit × Store :=
  match lookupInc s i with
  | none => (.error (.notFound i), s)
  | some old =>
    let s1 := eraseInc s i
    if persistEnabled ∧ persistOk = false then
      (.error .persistenceFailed, insertInc s1 i old)
    else (.ok (), s1)

/-- `ListFilter`: optional equality predicates plus a result limit; an
empty string disables a predicate, `limit > 0` enables truncation. The Go
field `Namespace` is rendered `namespaceF` (`namespace` is reserved). -/
structure ListFilter where
  namespaceF : String
  severity : String
  status : String
  limit : Int
deriving DecidableEq, Repr

/-- The conjunction of the filter's enabled equality predicates, exactly
as tested in the `List` loop (namespace against `Target`, then severity,
then status). -/
def matchesFilter (f : ListFilter) (inc : Incident) : Bool :=
  (f.namespaceF == "" || inc.target == f.namespaceF) &&
  (f.severity == "" || inc.severity == f.severity) &&
  (f.status == "" || inc.status == f.status)

/-- The ordering `List` sorts by: `sort.Slice` with less being
`CreatedAt.After`, i.e. a "newest first" ordering (the sorting algorithm
itself is unspecified; any sort agreeing with the comparator models it,
the model uses insertion sort). -/
def createdDesc (a b : Incident) : Prop :=
  b.createdAt ≤ a.createdAt

instance : DecidableRel createdDesc :=
  fun a b => Int.decLe b.createdAt a.createdAt

instance : IsTotal Incident createdDesc :=
  ⟨fun a b => le_total b.createdAt a.createdAt⟩

instance : IsTrans Incident createdDesc :=
  ⟨fun _ _ _ h1 h2 => le_trans h2 h1⟩

/-- `IncidentStore.List`: collect the incidents matching every enabled
predicate, sort by `createdAt` descending, and truncate to `limit` items
when `limit > 0` and more matched. -/
def listIncidents (s : Store) (f : ListFilter) : List Incident :=
  let results := (s.map Prod.snd).filter (matchesFilter f)
  let sorted := List.insertionSort createdDesc results
  if 0 < f.limit ∧ f.limit.toNat < sorted.length then
    sorted.take f.limit.toNat
  else sorted

/-- `IncidentStore.Count`: size of the in-memory map. -/
def count (s : Store) : Nat := s.length

/-- The eviction test of `CleanupOldIncidents`: status is resolved, a
`resolvedAt` is present, and it is strictly before the cutoff. -/
def cleanupDeletable (cutoff : Int) (inc : Incident) : Bool :=
  inc.status == incidentStatusResolved &&
    match inc.resolvedAt with
    | some r => decide (r < cutoff)
    | none => false

/-- The entries `CleanupOldIncidents` retains. -/
def cleanupKeep (cutoff : Int) (p : String × Incident) : Bool :=
  ! cleanupDeletable cutoff p.2

/-- `IncidentStore.CleanupOldIncidents`: a no-op when
`retentionDays <= 0`; otherwise removes every deletable incident relative
to `cutoff = now - retentionDays` days, and when at least one entry was
removed and persistence is enabled performs a single save at the end,
surfacing its failure without restoring the removed entries. The third
component counts the save attempts (a ghost observation of
`saveToFileUnsafe` calls, always 0 or 1 in this code path). -/
def cleanupOldIncidents (now retentionDays : Int)
    (persistEnabled persistOk : Bool) (s : Store) :
    Except StoreErr Unit × Store × Nat :=
  if retentionDays ≤ 0 then (.ok (), s, 0)
  else
    let cutoff := now - 86400 * retentionDays
    let s1 := s.filter (cleanupKeep cutoff)
    let deleted := s.length - s1.length
    if 0 < deleted ∧ persistEnabled then
      if persistOk then (.ok (), s1, 1)
      else (.error .persistenceFailed, s1, 1)
    else (.ok (), s1, 0)

/-- The state of the persisted incidents file as seen by `LoadFromFile`:
absent, present but not valid JSON for the incident map, or present with
a decodable incident map. -/
inductive FileState where
  | missing
  | malformed
  | good (contents : List (String × Incident))

/-- `IncidentStore.LoadFromFile`: errors when no file path is configured;
a missing file is success with the store untouched; a malformed file is a
load error; a well-formed file is decoded into the map (`json.Unmarshal`
into the existing map stores each decoded entry into it). -/
def loadFromFile (filePathSet : Bool) (file : FileState) (s : Store) :
    Except StoreErr Unit × Store :=
  if filePathSet = false then (.error .noFilePath, s)
  else
    match file with
    | .missing => (.ok (), s)
    | .malformed => (.error .loadFailed, s)
    | .good m => (.ok (), m.foldl (fun acc kv => insertInc acc kv.1 kv.2) s)

/-- `NewIncidentStoreWithPersistence`: fails when the data directory
cannot be created; otherwise builds an empty store with a file path
configured and calls `LoadFromFile`, logging a load failure as a warning
and continuing — the constructor returns the store with a nil error even
when the load failed. -/
def newIncidentStoreWithPersistence (mkdirOk : Bool) (file : FileState) :
    Except StoreErr Store :=
  if mkdirOk = false then .error .mkdirFailed
  else .ok (loadFromFile true file []).2

/-- A sample stored incident: active, target ns1, created at instant 1. -/
def sampleActive : Incident :=
  { id := "inc-1", target := "ns1", severity := "high",
    status := "active", createdAt := 1, updatedAt := 1, resolvedAt := none }

/-- A caller record reusing the id of `sampleActive` with different
payload fields. -/
def dupCaller : Incident :=
  { id := "inc-1", target := "ns2", severity := "low",
    status := "active", createdAt := 3, updatedAt := 3, resolvedAt := none }

/-- A sample caller-supplied validation rule: the target must be
non-empty. -/
def validNonemptyTarget : Incident → Bool :=
  fun i => ! (i.target == "")

/-- A record that passes `validNonemptyTarget`, with id and status left
for the store to fill in. -/
def c2Good : Incident :=
  { id := "", target := "ns1", severity := "high", status := "",
    createdAt := 0, updatedAt := 0, resolvedAt := none }

/-- `c2Good` with the target blanked out: fails `validNonemptyTarget`. -/
def c2Invalid : Incident := { c2Good with target := "" }

/-- An invalid record aimed at the id under which `c2Good` was created. -/
def c2Bad : Incident :=
  { c2Good with id := "inc-aaaa1111", target := "" }

/-- The store obtained by creating `c2Good` in an empty in-memory
store. -/
def c2Store : Store :=
  (create validNonemptyTarget 1 "inc-aaaa1111" false true [] c2Good).2

/-- A caller record for `sampleActive`'s id claiming a different
creation instant. -/
def c3Caller : Incident :=
  { id := "inc-1", target := "ns1", severity := "high",
    status := "active", createdAt := 5, updatedAt := 5, resolvedAt := none }

/-- Incident A of the filter example: created at instant 1. -/
def p4A : Incident :=
  { id := "inc-a", target := "ns1", severity := "high",
    status := "active", createdAt := 1, updatedAt := 1, resolvedAt := none }

/-- Incident B of the filter example: created at instant 3. -/
def p4B : Incident :=
  { id := "inc-b", target := "ns1", severity := "high",
    status := "active", createdAt := 3, updatedAt := 3, resolvedAt := none }

/-- Incident C of the filter example: created at instant 2. -/
def p4C : Incident :=
  { id := "inc-c", target := "ns1", severity := "high",
    status := "active", createdAt := 2, updatedAt := 2, resolvedAt := none }

/-- The store holding the three filter-example incidents. -/
def p4Store : Store := [("inc-a", p4A), ("inc-b", p4B), ("inc-c", p4C)]

/-- The filter of the example: target ns1, limit 2. -/
def p4Filter : ListFilter :=
  { namespaceF := "ns1", severity := "", status := "", limit := 2 }

/-- A resolved incident whose resolution instant 0 is far older than any
positive retention cutoff taken from a large "now". -/
def resolvedOld : Incident :=
  { id := "inc-1", target := "ns1", severity := "high",
    status := "resolved", createdAt := 0, updatedAt := 0,
    resolvedAt := some 0 }

end Storage

namespace Integrations

/-!
The MCO client (package integrations). `WaitForPoolStable` polls
`IsPoolStable` in a loop whose guard is `time.Now().Before(deadline)`
with `deadline = time.Now().Add(timeout)` computed once at entry; a poll
error is logged and polling continues, a stable poll returns nil, and
each not-yet-successful iteration then races the context against a
10-second timer: a fired context returns the cancellation error,
otherwise the loop re-checks the guard. Falling out of the loop returns
the timeout error.

Modelling: the clock starts at `t` and advances by the 10-unit poll
interval per iteration (the poll itself is instantaneous);
`poll i : Except Unit Bool` is the outcome `IsPoolStable` reports at
instant `i` (an `Except.error` is a provider error); `cancelled i : Bool`
says whether the context fires before the 10-second timer in the select
entered at instant `i`.
-/

/-- Outcome of `WaitForPoolStable`: nil (stable), the context-cancelled
error, or the did-not-stabilize-within-timeout error. -/
inductive WaitResult where
  | stable
  | cancelled
  | timedOut
deriving DecidableEq, Repr

/-- The polling loop of `MCOClient.WaitForPoolStable`, running from
instant `t` against a fixed `deadline`. -/
def waitForPoolStable (poll : Int → Except Unit Bool)
    (cancelled : Int → Bool) (t deadline : Int) : WaitResult :=
  if t < deadline then
    match poll t with
    | .ok true => .stable
    | _ =>
      if cancelled t then .cancelled
      else waitForPoolStable poll cancelled (t + 10) deadline
  else .timedOut
termination_by (deadline - t).toNat
decreasing_by omega

/-- `MCOClient.WaitForPoolStable` entered at instant `now` with the given
timeout: the deadline is computed once at entry as `now + timeout`. -/
def waitForPoolStableRun (poll : Int → Except Unit Bool)
    (cancelled : Int → Bool) (now timeout : Int) : WaitResult :=
  waitForPoolStable poll cancelled now (now + timeout)

/-- Replaces every provider error a poll oracle reports by a
"not yet stable" answer. -/
def suppressProviderErrors (poll : Int → Except Unit Bool) :
    Int → Except Unit Bool :=
  fun i =>
    match poll i with
    | .error _ => .ok false
    | r => r

/-- `MCOClient.WaitForAllPoolsStable` over an already-listed pool list:
waits for each pool sequentially in listing order, passing the one
`timeout` argument unchanged to every `WaitForPoolStable` call, and
returns the first failure wrapped with the failing pool's name without
touching the remaining pools; an empty list is success. `w p to` is the
outcome of `WaitForPoolStable` for pool `p` with timeout `to`; the second
component is the ghost trace of the `WaitForPoolStable` invocations made,
as (pool, timeout) pairs in call order. -/
def waitForAllPoolsStable (w : String → Int → WaitResult) (timeout : Int) :
    List String → Option (String × WaitResult) × List (String × Int)
  | [] => (none, [])
  | p :: rest =>
    match w p timeout with
    | .stable =>
      let r := waitForAllPoolsStable w timeout rest
      (r.1, (p, timeout) :: r.2)
    | .cancelled => (some (p, .cancelled), [(p, timeout)])
    | .timedOut => (some (p, .timedOut), [(p, timeout)])

/-- Unfolding lemma for one iteration of the polling loop inside the
deadline. -/
theorem waitForPoolStable_step (poll : Int → Except Unit Bool)
    (cancelled : Int → Bool) (t d : Int) (hlt : t < d) :
    waitForPoolStable poll cancelled t d =
      match poll t with
      | .ok true => .stable
      | _ =>
        if cancelled t then .cancelled
        else waitForPoolStable poll cancelled (t + 10) d := by
  rw [waitForPoolStable]
  simp only [if_pos hlt]

/-- Past the deadline the loop exits with the timeout error. -/
theorem waitForPoolStable_past_deadline (poll : Int → Except Unit Bool)
    (cancelled : Int → Bool) (t d : Int) (hge : ¬ t < d) :
    waitForPoolStable poll cancelled t d = .timedOut := by
  rw [waitForPoolStable]
  simp only [if_neg hge]

/-- Provider errors are observationally "not yet stable": the loop
behaves identically when every provider error is replaced by a
not-stable answer. -/
theorem waitForPoolStable_suppress (poll : Int → Except Unit Bool)
    (cancelled : Int → Bool) (t d : Int) :
    waitForPoolStable poll cancelled t d =
      waitForPoolStable (suppressProviderErrors poll) cancelled t d := by
  induction t, d using waitForPoolStable.induct poll cancelled with
  | case1 t d hlt hp =>
    have hs : suppressProviderErrors poll t = .ok true := by
      simp [suppressProviderErrors, hp]
    rw [waitForPoolStable_step poll cancelled t d hlt,
      waitForPoolStable_step _ cancelled t d hlt, hp, hs]
  | case2 t d hlt hc hp =>
    rw [waitForPoolStable_step poll cancelled t d hlt,
      waitForPoolStable_step _ cancelled t d hlt]
    rcases he : poll t with e | b
    · have hs : suppressProviderErrors poll t = .ok false := by
        simp [suppressProviderErrors, he]
      rw [hs]
      simp [hc]
    · have hb : b = false := by
        cases b
        · rfl
        · exact absurd he hp
      subst hb
      have hs : suppressProviderErrors poll t = .ok false := by
        simp [suppressProviderErrors, he]
      rw [hs]
      simp [hc]
  | case3 t d hlt hc hp ih =>
    rw [waitForPoolStable_step poll cancelled t d hlt,
      waitForPoolStable_step _ cancelled t d hlt]
    rcases he : poll t with e | b
    · have hs : suppressProviderErrors poll t = .ok false := by
        simp [suppressProviderErrors, he]
      rw [hs]
      simp only [Bool.not_eq_true] at hc
      simp [hc, ih]
    · have hb : b = false := by
        cases b
        · rfl
        · exact absurd he hp
      subst hb
      have hs : suppressProviderErrors poll t = .ok false := by
        simp [suppressProviderErrors, he]
      rw [hs]
      simp only [Bool.not_eq_true] at hc
      simp [hc, ih]
  | case4 t d hge =>
    rw [waitForPoolStable_past_deadline poll cancelled t d hge,
      waitForPoolStable_past_deadline _ cancelled t d hge]

/-- The loop only reports stable when some poll inside the deadline
window actually reported the pool stable. -/
theorem waitForPoolStable_stable_reaches (poll : Int → Except Unit Bool)
    (cancelled : Int → Bool) (t d : Int) :
    waitForPoolStable poll cancelled t d = .stable →
      ∃ i, t ≤ i ∧ i < d ∧ poll i = .ok true := by
  induction t, d using waitForPoolStable.induct poll cancelled with
  | case1 t d hlt hp =>
    exact fun _ => ⟨t, le_refl t, hlt, hp⟩
  | case2 t d hlt hc hp =>
    rw [waitForPoolStable_step poll cancelled t d hlt]
    rcases he : poll t with e | b
    · simp [hc]
    · have hb : b = false := by
        cases b
        · rfl
        · exact absurd he hp
      subst hb
      simp [hc]
  | case3 t d hlt hc hp ih =>
    rw [waitForPoolStable_step poll cancelled t d hlt]
    simp only [Bool.not_eq_true] at hc
    rcases he : poll t with e | b
    · simp only [hc, if_false]
      intro h
      obtain ⟨i, h1, h2, h3⟩ := ih h
      exact ⟨i, by omega, h2, h3⟩
    · have hb : b = false := by
        cases b
        · rfl
        · exact absurd he hp
      subst hb
      simp only [hc, if_false]
      intro h
      obtain ⟨i, h1, h2, h3⟩ := ih h
      exact ⟨i, by omega, h2, h3⟩
  | case4 t d hge =>
    rw [waitForPoolStable_past_deadline poll cancelled t d hge]
    intro h
    exact absurd h (by simp)

/-- A batch wait over pools that all stabilize succeeds and calls the
per-pool wait once per pool, in listing order, always passing the one
timeout value. -/
theorem waitForAllPoolsStable_all_stable (w : String → Int → WaitResult)
    (timeout : Int) :
    ∀ pools : List String, (∀ p ∈ pools, w p timeout = .stable) →
      waitForAllPoolsStable w timeout pools =
        (none, pools.map (fun p => (p, timeout))) := by
  intro pools
  induction pools with
  | nil => intro _; rfl
  | cons p rest ih =>
    intro h
    have hp : w p timeout = .stable := h p (List.mem_cons_self p rest)
    have hrest : ∀ q ∈ rest, w q timeout = .stable :=
      fun q hq => h q (List.mem_cons_of_mem p hq)
    simp only [waitForAllPoolsStable, hp, ih hrest, List.map_cons]

/-- A batch wait stops at the first pool whose wait fails: it returns
that pool's failure wrapped with its name, and the call trace shows the
stable prefix and the failing pool only — no later pool is waited on. -/
theorem waitForAllPoolsStable_fail_fast (w : String → Int → WaitResult)
    (timeout : Int) :
    ∀ (l1 : List String) (p : String) (l2 : List String),
      (∀ q ∈ l1, w q timeout = .stable) → w p timeout ≠ .stable →
      waitForAllPoolsStable w timeout (l1 ++ p :: l2) =
        (some (p, w p timeout),
          l1.map (fun q => (q, timeout)) ++ [(p, timeout)]) := by
  intro l1
  induction l1 with
  | nil =>
    intro p l2 _ hp
    rcases he : w p timeout with _ | _ | _
    · exact absurd he hp
    · simp [waitForAllPoolsStable, he]
    · simp [waitForAllPoolsStable, he]
  | cons q rest ih =>
    intro p l2 h1 hp
    have hq : w q timeout = .stable := h1 q (List.mem_cons_self q rest)
    have hrest : ∀ r ∈ rest, w r timeout = .stable :=
      fun r hr => h1 r (List.mem_cons_of_mem q hr)
    simp [waitForAllPoolsStable, hq, ih p l2 hrest hp]

end Integrations

/-- Claim C4: `WaitForAllPoolsStable` over the listed pools waits for
each pool sequentially in listing order, handing every per-pool wait the
same `timeout` value as its own deadline; an empty pool list succeeds
immediately; and at the first pool whose wait fails it returns that
failure (wrapped with the pool name) without waiting on any later pool,
as the invocation trace shows. -/
theorem waitForAllPoolsStable_spec (w : String → Int → Integrations.WaitResult)
    (timeout : Int) :
    Integrations.waitForAllPoolsStable w timeout [] = (none, [])
    ∧ (∀ pools : List String, (∀ p ∈ pools, w p timeout = .stable) →
        Integrations.waitForAllPoolsStable w timeout pools =
          (none, pools.map (fun p => (p, timeout))))
    ∧ (∀ (l1 : List String) (p : String) (l2 : List String),
        (∀ q ∈ l1, w q timeout = .stable) → w p timeout ≠ .stable →
        Integrations.waitForAllPoolsStable w timeout (l1 ++ p :: l2) =
          (some (p, w p timeout),
            l1.map (fun q => (q, timeout)) ++ [(p, timeout)])) :=
  ⟨rfl,
   Integrations.waitForAllPoolsStable_all_stable w timeout,
   Integrations.waitForAllPoolsStable_fail_fast w timeout⟩

/-- With pools master, worker, infra where worker times out, the batch
wait returns the worker failure and the trace shows master and worker
were waited on with the shared timeout while infra never was. -/
theorem waitForAllPoolsStable_spec_witness :
    Integrations.waitForAllPoolsStable
        (fun p _ => if p = "worker"
          then Integrations.WaitResult.timedOut
          else Integrations.WaitResult.stable)
        60 ["master", "worker", "infra"] =
      (some ("worker", Integrations.WaitResult.timedOut),
        [("master", 60), ("worker", 60)]) := by
  have h := (waitForAllPoolsStable_spec
      (fun p _ => if p = "worker"
        then Integrations.WaitResult.timedOut
        else Integrations.WaitResult.stable) 60).2.2
      ["master"] "worker" ["infra"]
      (by decide) (by decide)
  simpa using h

/-- Claim C9: during `WaitForPoolStable` a provider error on a poll never
terminates the wait nor is returned as the result: the run is identical
to one in which every provider error is read as "not yet stable" (so the
only terminal outcomes are stability, cancellation, and deadline expiry,
as enumerated by `WaitResult`), and a stable outcome arises only when
some poll before the deadline actually reported the pool stable. -/
theorem waitForPoolStable_provider_error_tolerance
    (poll : Int → Except Unit Bool) (cancelled : Int → Bool) (t d : Int) :
    Integrations.waitForPoolStable poll cancelled t d =
      Integrations.waitForPoolStable
        (Integrations.suppressProviderErrors poll) cancelled t d
    ∧ (Integrations.waitForPoolStable poll cancelled t d =
        Integrations.WaitResult.stable →
        ∃ i, t ≤ i ∧ i < d ∧ poll i = Except.ok true) :=
  ⟨Integrations.waitForPoolStable_suppress poll cancelled t d,
   Integrations.waitForPoolStable_stable_reaches poll cancelled t d⟩

/-- A run on which the first poll reports a provider error and the second
reports stability ends stable: the error neither terminated the wait nor
surfaced, and the stable poll is exhibited inside the deadline window. -/
theorem waitForPoolStable_provider_error_tolerance_witness :
    Integrations.waitForPoolStable
        (fun i => if i = 0 then Except.error () else Except.ok true)
        (fun _ => false) 0 30 = Integrations.WaitResult.stable
    ∧ ∃ i, 0 ≤ i ∧ i < 30 ∧
        (fun i : Int => if i = 0 then Except.error () else Except.ok true) i
          = Except.ok (true : Bool) := by
  constructor
  · rw [Integrations.waitForPoolStable]
    norm_num
    rw [Integrations.waitForPoolStable]
    norm_num
  · exact (waitForPoolStable_provider_error_tolerance
      (fun i => if i = 0 then Except.error () else Except.ok true)
      (fun _ => false) 0 30).2
      (by
        rw [Integrations.waitForPoolStable]
        norm_num
        rw [Integrations.waitForPoolStable]
        norm_num)

/-- Claim C10: with a non-positive timeout the deadline `now + timeout`
computed at entry is already reached, so `WaitForPoolStable` returns the
timeout error at once for every poll oracle — in particular no status
query influences the outcome even when the pool is currently stable. -/
theorem waitForPoolStable_nonpositive_timeout
    (poll : Int → Except Unit Bool) (cancelled : Int → Bool)
    (now timeout : Int) (h : timeout ≤ 0) :
    Integrations.waitForPoolStableRun poll cancelled now timeout =
      Integrations.WaitResult.timedOut := by
  unfold Integrations.waitForPoolStableRun
  exact Integrations.waitForPoolStable_past_deadline poll cancelled now
    (now + timeout) (by omega)

/-- A zero-timeout wait against an always-stable pool still times out
immediately. -/
theorem waitForPoolStable_nonpositive_timeout_witness :
    Integrations.waitForPoolStableRun (fun _ => Except.ok true)
      (fun _ => false) 0 0 = Integrations.WaitResult.timedOut :=
  waitForPoolStable_nonpositive_timeout (fun _ => Except.ok true)
    (fun _ => false) 0 0 (by decide)

namespace Storage

/-- Looking up the key just assigned returns the assigned value. -/
theorem lookupInc_insertInc_self (s : Store) (i : String) (v : Incident) :
    lookupInc (insertInc s i v) i = some v := by
  induction s with
  | nil => simp [insertInc, lookupInc]
  | cons p rest ih =>
    obtain ⟨k, w⟩ := p
    by_cases hk : k = i
    · simp [insertInc, hk, lookupInc]
    · simp [insertInc, hk, lookupInc, ih]

/-- The eviction test, read as a proposition. -/
theorem cleanupDeletable_iff (cutoff : Int) (inc : Incident) :
    cleanupDeletable cutoff inc = true ↔
      inc.status = incidentStatusResolved
      ∧ ∃ r, inc.resolvedAt = some r ∧ r < cutoff := by
  unfold cleanupDeletable
  rcases h : inc.resolvedAt with _ | r
  · simp [h]
  · simp [h, Bool.and_eq_true, beq_iff_eq]

/-- With a positive retention, the store left by the cleanup is the
filtered store on every persistence outcome. -/
theorem cleanupOldIncidents_store_eq (now retention : Int)
    (pe pok : Bool) (s : Store) (hr : 0 < retention) :
    (cleanupOldIncidents now retention pe pok s).2.1 =
      s.filter (cleanupKeep (now - 86400 * retention)) := by
  unfold cleanupOldIncidents
  rw [if_neg (by omega)]
  simp only []
  split
  · split <;> rfl
  · rfl

end Storage

/-- Claim C1 (failing input for the rollback invariant): when a `Create`
reuses the id of an incident already in the store and the persistence
write fails, the rollback `delete` removes the map entry outright instead
of restoring the previously stored incident — the call returns the
persistence error, yet the store that held `sampleActive` under "inc-1"
before the call no longer holds any incident under "inc-1" afterwards,
and its count drops from 1 to 0. -/
theorem create_duplicate_id_rollback_bug :
    (Storage.create (fun _ => true) 5 "inc-fresh001" true false
        [("inc-1", Storage.sampleActive)] Storage.dupCaller).1
      = Except.error Storage.StoreErr.persistenceFailed
    ∧ Storage.lookupInc [("inc-1", Storage.sampleActive)] "inc-1"
        = some Storage.sampleActive
    ∧ Storage.lookupInc
        (Storage.create (fun _ => true) 5 "inc-fresh001" true false
          [("inc-1", Storage.sampleActive)] Storage.dupCaller).2 "inc-1"
        = none
    ∧ Storage.count [("inc-1", Storage.sampleActive)] = 1
    ∧ Storage.count
        (Storage.create (fun _ => true) 5 "inc-fresh001" true false
          [("inc-1", Storage.sampleActive)] Storage.dupCaller).2 = 0 :=
  ⟨rfl, rfl, rfl, rfl, rfl⟩

/-- Claim C2 (counterexample): `Update` performs no validation, so an
incident failing the caller-supplied rule becomes present: after a valid
`Create`, updating the record with a blank target succeeds and the stored
incident fails `validNonemptyTarget`. -/
theorem update_admits_invalid_incident :
    (Storage.update 2 false true Storage.c2Store Storage.c2Bad).1
      = Except.ok ()
    ∧ Storage.lookupInc
        (Storage.update 2 false true Storage.c2Store Storage.c2Bad).2
        "inc-aaaa1111"
      = some { Storage.c2Bad with updatedAt := 2 }
    ∧ Storage.validNonemptyTarget { Storage.c2Bad with updatedAt := 2 }
        = false :=
  ⟨rfl, rfl, rfl⟩

/-- Claim C2 (amended): only `Create` enforces the caller-supplied
validation — an invalid record is rejected with the validation error and
zero state change, and a record admitted by a successful `Create` passed
validation; `Update` and the file load perform no validation. -/
theorem create_validates (valid : Storage.Incident → Bool) (now : Int)
    (genId : String) (pe pok : Bool) (s : Storage.Store)
    (inc : Storage.Incident) :
    (valid inc = false →
      Storage.create valid now genId pe pok s inc
        = (Except.error Storage.StoreErr.validationFailed, s))
    ∧ (∀ r s2, Storage.create valid now genId pe pok s inc
        = (Except.ok r, s2) → valid inc = true) := by
  constructor
  · intro h
    simp [Storage.create, h]
  · intro r s2 h
    cases hv : valid inc
    · simp [Storage.create, hv] at h
    · rfl

/-- Creating a record with a blank target under `validNonemptyTarget` is
rejected with the validation error and leaves the store untouched. -/
theorem create_validates_witness :
    Storage.create Storage.validNonemptyTarget 1 "inc-bbbb2222" false true
        [] Storage.c2Invalid
      = (Except.error Storage.StoreErr.validationFailed, []) :=
  (create_validates Storage.validNonemptyTarget 1 "inc-bbbb2222" false true
    [] Storage.c2Invalid).1 rfl

/-- Claim C3 (counterexample): `Update` stores the caller's record
wholesale, so a successful update whose record carries `createdAt = 5`
overwrites the stored `createdAt = 1` — the ledger does take `createdAt`
from the caller. -/
theorem update_changes_createdAt :
    (Storage.update 9 false true [("inc-1", Storage.sampleActive)]
        Storage.c3Caller).1 = Except.ok ()
    ∧ Storage.sampleActive.createdAt = 1
    ∧ (Storage.lookupInc
        (Storage.update 9 false true [("inc-1", Storage.sampleActive)]
          Storage.c3Caller).2 "inc-1").map Storage.Incident.createdAt
        = some 5 :=
  ⟨rfl, rfl, rfl⟩

/-- Claim C3 (amended): a successful `Update` refreshes `updatedAt` to
the mutation instant and otherwise stores the caller's record unchanged;
in particular the stored `createdAt` afterwards is the caller's
`createdAt`, which equals the previous one only when the caller passed it
along. -/
theorem update_stores_callers_record (now : Int) (pe pok : Bool)
    (s : Storage.Store) (inc old : Storage.Incident)
    (h : Storage.lookupInc s inc.id = some old)
    (hp : pe = false ∨ pok = true) :
    (Storage.update now pe pok s inc).1 = Except.ok ()
    ∧ Storage.lookupInc (Storage.update now pe pok s inc).2 inc.id
        = some { inc with updatedAt := now } := by
  have hcond : ¬((pe = true) ∧ pok = false) := by
    rcases hp with h1 | h1 <;> simp [h1]
  constructor
  · simp [Storage.update, h, hcond]
  · simp [Storage.update, h, hcond, Storage.lookupInc_insertInc_self]

/-- Updating `sampleActive` with the record `c3Caller` succeeds and
stores exactly `c3Caller` with its `updatedAt` refreshed to 9. -/
theorem update_stores_callers_record_witness :
    (Storage.update 9 false true [("inc-1", Storage.sampleActive)]
        Storage.c3Caller).1 = Except.ok ()
    ∧ Storage.lookupInc
        (Storage.update 9 false true [("inc-1", Storage.sampleActive)]
          Storage.c3Caller).2 Storage.c3Caller.id
        = some { Storage.c3Caller with updatedAt := 9 } :=
  update_stores_callers_record 9 false true
    [("inc-1", Storage.sampleActive)] Storage.c3Caller
    Storage.sampleActive rfl (Or.inl rfl)

namespace Storage

/-- `listIncidents` unfolded to its sort-then-truncate shape. -/
theorem listIncidents_eq (s : Store) (f : ListFilter) :
    listIncidents s f =
      if 0 < f.limit ∧ f.limit.toNat <
          (List.insertionSort createdDesc
            ((s.map Prod.snd).filter (matchesFilter f))).length then
        (List.insertionSort createdDesc
          ((s.map Prod.snd).filter (matchesFilter f))).take f.limit.toNat
      else
        List.insertionSort createdDesc
          ((s.map Prod.snd).filter (matchesFilter f)) :=
  rfl

end Storage

/-- Claim C5: `List(filter)` returns only incidents satisfying the
conjunction of the enabled equality predicates; the result is sorted by
`createdAt` descending; a positive limit bounds the result length; and
whenever no truncation applies (non-positive limit, or at most `limit`
matches) the result is a permutation of all matching incidents. -/
theorem listIncidents_spec (s : Storage.Store) (f : Storage.ListFilter) :
    (∀ x ∈ Storage.listIncidents s f,
        (f.namespaceF = "" ∨ x.target = f.namespaceF)
        ∧ (f.severity = "" ∨ x.severity = f.severity)
        ∧ (f.status = "" ∨ x.status = f.status))
    ∧ (Storage.listIncidents s f).Pairwise
        (fun a b => b.createdAt ≤ a.createdAt)
    ∧ (0 < f.limit → (Storage.listIncidents s f).length ≤ f.limit.toNat)
    ∧ ((f.limit ≤ 0 ∨
          ((s.map Prod.snd).filter (Storage.matchesFilter f)).length
            ≤ f.limit.toNat) →
        (Storage.listIncidents s f).Perm
          ((s.map Prod.snd).filter (Storage.matchesFilter f))) := by
  have hperm :
      (List.insertionSort Storage.createdDesc
        ((s.map Prod.snd).filter (Storage.matchesFilter f))).Perm
        ((s.map Prod.snd).filter (Storage.matchesFilter f)) :=
    List.perm_insertionSort _ _
  have hlen := hperm.length_eq
  have hsorted :
      (List.insertionSort Storage.createdDesc
        ((s.map Prod.snd).filter (Storage.matchesFilter f))).Pairwise
        (fun a b => b.createdAt ≤ a.createdAt) :=
    (List.sorted_insertionSort Storage.createdDesc
      ((s.map Prod.snd).filter (Storage.matchesFilter f))).imp
      (fun hab => hab)
  have hmatch : ∀ x, x ∈
      ((s.map Prod.snd).filter (Storage.matchesFilter f)) →
      (f.namespaceF = "" ∨ x.target = f.namespaceF)
      ∧ (f.severity = "" ∨ x.severity = f.severity)
      ∧ (f.status = "" ∨ x.status = f.status) := by
    intro x hx
    have hm := (List.mem_filter.mp hx).2
    simpa [Storage.matchesFilter, Bool.and_eq_true, Bool.or_eq_true,
      beq_iff_eq, and_assoc] using hm
  rw [Storage.listIncidents_eq]
  by_cases hc : 0 < f.limit ∧ f.limit.toNat <
      (List.insertionSort Storage.createdDesc
        ((s.map Prod.snd).filter (Storage.matchesFilter f))).length
  · rw [if_pos hc]
    refine ⟨?_, ?_, ?_, ?_⟩
    · intro x hx
      exact hmatch x (hperm.mem_iff.mp (List.take_subset _ _ hx))
    · exact hsorted.sublist (List.take_sublist _ _)
    · intro _
      exact List.length_take_le f.limit.toNat _
    · intro hno
      exfalso
      rcases hno with h1 | h1
      · omega
      · omega
  · rw [if_neg hc]
    refine ⟨?_, hsorted, ?_, fun _ => hperm⟩
    · intro x hx
      exact hmatch x (hperm.mem_iff.mp hx)
    · intro hpos
      have : ¬ f.limit.toNat <
          (List.insertionSort Storage.createdDesc
            ((s.map Prod.snd).filter (Storage.matchesFilter f))).length :=
        fun hlt => hc ⟨hpos, hlt⟩
      omega

/-- The filter-sort-limit example: incidents created at instants 1, 3, 2
all in ns1, listed with target ns1 and limit 2, give the two newest in
descending order, within the bound the theorem gives for limit 2. -/
theorem listIncidents_spec_witness :
    Storage.listIncidents Storage.p4Store Storage.p4Filter
      = [Storage.p4B, Storage.p4C]
    ∧ (Storage.listIncidents Storage.p4Store Storage.p4Filter).length
        ≤ (Storage.p4Filter.limit).toNat := by
  refine ⟨by decide, ?_⟩
  exact (listIncidents_spec Storage.p4Store Storage.p4Filter).2.2.1
    (by decide)

/-- Claim C6: `CleanupOldIncidents` is a successful no-op for a
non-positive retention; for a positive retention an entry remains in the
store exactly when it was there before and is not an evictable one
(resolved, with a resolution instant strictly before now minus the
retention window) — unresolved incidents and resolved ones without a
resolution instant are never evicted. -/
theorem cleanupOldIncidents_spec (now retention : Int) (pe pok : Bool)
    (s : Storage.Store) :
    (retention ≤ 0 →
      Storage.cleanupOldIncidents now retention pe pok s
        = (Except.ok (), s, 0))
    ∧ (0 < retention → ∀ p : String × Storage.Incident,
        p ∈ (Storage.cleanupOldIncidents now retention pe pok s).2.1 ↔
          p ∈ s ∧ ¬(p.2.status = Storage.incidentStatusResolved
            ∧ ∃ r, p.2.resolvedAt = some r
                ∧ r < now - 86400 * retention)) := by
  constructor
  · intro h
    unfold Storage.cleanupOldIncidents
    rw [if_pos h]
  · intro hr p
    rw [Storage.cleanupOldIncidents_store_eq now retention pe pok s hr,
      List.mem_filter]
    refine and_congr Iff.rfl ?_
    constructor
    · intro hk hdel
      have hb := (Storage.cleanupDeletable_iff _ _).mpr hdel
      simp [Storage.cleanupKeep, hb] at hk
    · intro hn
      cases hb : Storage.cleanupDeletable (now - 86400 * retention) p.2
      · simp [Storage.cleanupKeep, hb]
      · exact absurd ((Storage.cleanupDeletable_iff _ _).mp hb) hn

/-- A zero retention leaves the sample store untouched with success, and
a 90-day retention retains an active incident. -/
theorem cleanupOldIncidents_spec_witness :
    Storage.cleanupOldIncidents 1000 0 true false
        [("inc-1", Storage.sampleActive)]
      = (Except.ok (), [("inc-1", Storage.sampleActive)], 0)
    ∧ ("inc-1", Storage.sampleActive) ∈
        (Storage.cleanupOldIncidents 8640000 90 false true
          [("inc-1", Storage.sampleActive)]).2.1 := by
  refine ⟨(cleanupOldIncidents_spec 1000 0 true false _).1 (by decide), ?_⟩
  exact ((cleanupOldIncidents_spec 8640000 90 false true
      [("inc-1", Storage.sampleActive)]).2 (by decide)
      ("inc-1", Storage.sampleActive)).mpr
    ⟨List.mem_singleton.mpr rfl, fun hdel => absurd hdel.1 (by decide)⟩

/-- Claim C7: a cleanup run with positive retention and persistence
enabled that removes at least one incident performs exactly one persist
attempt, after all removals; on a failed persist the call reports the
persistence error while the store keeps exactly the retained entries
(the removals are not rolled back), and on a successful persist it
reports success over the same store. -/
theorem cleanupOldIncidents_persist_once (now retention : Int)
    (pok : Bool) (s : Storage.Store) (hr : 0 < retention)
    (hd : (s.filter
        (Storage.cleanupKeep (now - 86400 * retention))).length
      < s.length) :
    (Storage.cleanupOldIncidents now retention true pok s).2.2 = 1
    ∧ (Storage.cleanupOldIncidents now retention true pok s).2.1
        = s.filter (Storage.cleanupKeep (now - 86400 * retention))
    ∧ (pok = false →
        (Storage.cleanupOldIncidents now retention true pok s).1
          = Except.error Storage.StoreErr.persistenceFailed)
    ∧ (pok = true →
        (Storage.cleanupOldIncidents now retention true pok s).1
          = Except.ok ()) := by
  have h1 : ¬ retention ≤ 0 := by omega
  unfold Storage.cleanupOldIncidents
  rw [if_neg h1]
  simp only [eq_self_iff_true, and_true]
  rw [if_pos (show 0 < s.length - (s.filter
      (Storage.cleanupKeep (now - 86400 * retention))).length by omega)]
  cases pok
  · simp
  · simp

/-- Cleaning up a store holding one long-resolved incident with a
90-day retention and a failing persistence layer: one persist attempt,
the incident stays removed, and the persistence error is reported. -/
theorem cleanupOldIncidents_persist_once_witness :
    (Storage.cleanupOldIncidents 8640000 90 true false
        [("inc-1", Storage.resolvedOld)]).2.2 = 1
    ∧ (Storage.cleanupOldIncidents 8640000 90 true false
        [("inc-1", Storage.resolvedOld)]).2.1 = []
    ∧ (Storage.cleanupOldIncidents 8640000 90 true false
        [("inc-1", Storage.resolvedOld)]).1
      = Except.error Storage.StoreErr.persistenceFailed := by
  have h := cleanupOldIncidents_persist_once 8640000 90 false
    [("inc-1", Storage.resolvedOld)] (by decide) (by decide)
  exact ⟨h.1, by rw [h.2.1]; rfl, h.2.2.1 rfl⟩

/-- Claim C8 (counterexample): a malformed persisted file does make the
internal load fail, but `NewIncidentStoreWithPersistence` — the startup
operation — swallows that failure: it returns the store with a nil
error, so no load error reaches the startup caller. -/
theorem startup_swallows_load_error :
    (Storage.loadFromFile true Storage.FileState.malformed []).1
      = Except.error Storage.StoreErr.loadFailed
    ∧ Storage.newIncidentStoreWithPersistence true
        Storage.FileState.malformed = Except.ok [] :=
  ⟨rfl, rfl⟩

/-- Claim C8 (amended): on startup of a persistence-enabled store a
missing file is treated as an empty store and the constructor succeeds;
a malformed file causes `LoadFromFile` to return a load error with the
store left empty, but the constructor logs that error and still returns
the empty store with success, so the load error is not surfaced to the
caller of the startup operation. -/
theorem startup_load_behaviour :
    Storage.newIncidentStoreWithPersistence true
        Storage.FileState.missing = Except.ok []
    ∧ (Storage.loadFromFile true Storage.FileState.missing []).1
        = Except.ok ()
    ∧ (Storage.loadFromFile true Storage.FileState.malformed []).1
        = Except.error Storage.StoreErr.loadFailed
    ∧ (Storage.loadFromFile true Storage.FileState.malformed []).2 = []
    ∧ Storage.newIncidentStoreWithPersistence true
        Storage.FileState.malformed = Except.ok [] :=
  ⟨rfl, rfl, rfl, rfl, rfl⟩
